import Mathlib

/-!
# Verification of the contacts backend (goit-pythonweb-hw-10)

Shallow embedding of `app/crud/contact.py`: the ownership-scoped CRUD
operations, the ILIKE-based search, and the upcoming-birthday window
computation, together with proofs of the specification's claims.

The relational store is modelled as a list of `Contact` records in
insertion order with an auto-incremented primary key (`DB.nextId`).
The credential verifier (`app/utils/auth.py`, `decode_access_token`,
which wraps an external JWT library) is modelled at its interface:
a token either decodes to a payload carrying a numeric `user_id`
or fails to decode.  Python `datetime.date` values are modelled as
year/month/day triples with Python's lexicographic comparison,
`date.replace` validation (raising `ValueError` on an invalid result,
e.g. Feb 29 of a non-leap year) and exact calendar `timedelta` addition.
-/

namespace ContactsApp

/-- A Python `datetime.date`: year, month, day. -/
structure PyDate where
  year : Nat
  month : Nat
  day : Nat
deriving Repr, DecidableEq

/-- Python date comparison `a < b`: lexicographic on (year, month, day). -/
def PyDate.ltb (a b : PyDate) : Bool :=
  a.year < b.year ||
  (a.year == b.year && (a.month < b.month ||
    (a.month == b.month && a.day < b.day)))

/-- Python date comparison `a <= b`. -/
def PyDate.leb (a b : PyDate) : Bool :=
  a.ltb b || a == b

/-- Gregorian leap-year test, as in Python's `calendar.isleap`. -/
def isLeap (y : Nat) : Bool :=
  (y % 4 == 0 && y % 100 != 0) || y % 400 == 0

/-- Number of days in a month, as used by `datetime.date` validation. -/
def daysInMonth (y m : Nat) : Nat :=
  if m == 2 then (if isLeap y then 29 else 28)
  else if m == 4 || m == 6 || m == 9 || m == 11 then 30
  else 31

/-- Python `d.replace(year := y)`: keeps month/day, validates the result;
`none` models the `ValueError` raised when the day does not exist in the
target year (Feb 29 of a non-leap year). -/
def PyDate.replaceYear (d : PyDate) (y : Nat) : Option PyDate :=
  if d.day ≤ daysInMonth y d.month then some ⟨y, d.month, d.day⟩ else none

/-- Calendar successor of a date. -/
def PyDate.nextDay (d : PyDate) : PyDate :=
  if d.day < daysInMonth d.year d.month then ⟨d.year, d.month, d.day + 1⟩
  else if d.month < 12 then ⟨d.year, d.month + 1, 1⟩
  else ⟨d.year + 1, 1, 1⟩

/-- Python `d + timedelta(days := n)` for a nonnegative `n`. -/
def PyDate.addDays (d : PyDate) : Nat → PyDate
  | 0 => d
  | n + 1 => (d.addDays n).nextDay

/-- A row of the `contacts` table (fields per `app/schemas/contact.py`
and their use in `app/crud/contact.py`; `user_id` is the nullable
owner foreign key). -/
structure Contact where
  id : Nat
  first_name : String
  last_name : String
  email : String
  phone : String
  birthday : PyDate
  extra : Option String
  user_id : Option Nat
deriving Repr, DecidableEq

/-- The `ContactCreate` request schema (`app/schemas/contact.py`):
all contact fields, including a caller-suppliable `user_id`. -/
structure ContactCreate where
  first_name : String
  last_name : String
  email : String
  phone : String
  birthday : PyDate
  extra : Option String
  user_id : Option Nat
deriving Repr, DecidableEq

/-- The `ContactUpdate` payload as consumed by
`contact.model_dump(exclude_unset := True)`: for each column, `none`
means the field was not present in the partial update and `some v`
means it was explicitly supplied with value `v`. -/
structure ContactUpdate where
  first_name : Option String
  last_name : Option String
  email : Option String
  phone : Option String
  birthday : Option PyDate
  extra : Option (Option String)
  user_id : Option (Option Nat)
deriving Repr, DecidableEq

/-- The relational store: rows in insertion order plus the
auto-increment counter for the primary key. -/
structure DB where
  contacts : List Contact
  nextId : Nat
deriving Repr, DecidableEq

/-- A bearer credential as seen by the accessor: either it decodes to a
payload carrying the verified numeric `user_id`, or it is
missing/malformed/expired/forged and fails to decode. -/
inductive Token where
  | valid (user_id : Nat)
  | invalid
deriving Repr, DecidableEq

/-- Errors surfaced by the accessor operations: the HTTP 401 raised on
a failed decode, and Python's `ValueError` from `date.replace`. -/
inductive Err where
  | unauthenticated
  | valueError
deriving Repr, DecidableEq

/-- `decode_access_token` (`app/utils/auth.py`) at its interface: the
payload's `user_id` on successful JWT verification, `None` otherwise. -/
def decode_access_token : Token → Option Nat
  | .valid uid => some uid
  | .invalid => none

/-- The row predicate `Contact.id == contact_id, Contact.user_id == user_id`
used by `get_contact`, `update_contact` and `delete_contact`. -/
def ownedMatch (contact_id uid : Nat) (c : Contact) : Bool :=
  c.id == contact_id && c.user_id == some uid

/-- `create_contact`: decode the token (401 on failure), drop any
caller-supplied `user_id` from the payload (`contact_data.pop`), and
insert a new row bound to the verified user with a generated id. -/
def create_contact (db : DB) (contact : ContactCreate) (token : Token) :
    Except Err (DB × Contact) :=
  match decode_access_token token with
  | none => .error .unauthenticated
  | some uid =>
    let db_contact : Contact :=
      { id := db.nextId
        first_name := contact.first_name
        last_name := contact.last_name
        email := contact.email
        phone := contact.phone
        birthday := contact.birthday
        extra := contact.extra
        user_id := some uid }
    .ok ({ contacts := db.contacts ++ [db_contact], nextId := db.nextId + 1 },
         db_contact)

/-- `get_contacts`: rows filtered on the verified owner, then
`offset(skip).limit(limit)`. -/
def get_contacts (db : DB) (skip limit : Nat) (token : Token) :
    Except Err (List Contact) :=
  match decode_access_token token with
  | none => .error .unauthenticated
  | some uid =>
    .ok (((db.contacts.filter (fun c => c.user_id == some uid)).drop skip).take limit)

/-- `get_contact`: `.first()` on the id-and-owner filter. -/
def get_contact (db : DB) (contact_id : Nat) (token : Token) :
    Except Err (Option Contact) :=
  match decode_access_token token with
  | none => .error .unauthenticated
  | some uid =>
    .ok (db.contacts.find? (ownedMatch contact_id uid))

/-- Apply the fields present in a `ContactUpdate` to a row: the
`setattr` loop over `model_dump(exclude_unset := True)`. -/
def applyUpdate (c : Contact) (u : ContactUpdate) : Contact :=
  { c with
    first_name := u.first_name.getD c.first_name
    last_name := u.last_name.getD c.last_name
    email := u.email.getD c.email
    phone := u.phone.getD c.phone
    birthday := u.birthday.getD c.birthday
    extra := u.extra.getD c.extra
    user_id := u.user_id.getD c.user_id }

/-- Replace the first row matching `p` by its image under `f`
(the ORM mutating the single fetched row in place). -/
def replaceFirst (p : Contact → Bool) (f : Contact → Contact) :
    List Contact → List Contact
  | [] => []
  | x :: xs => if p x then f x :: xs else x :: replaceFirst p f xs

/-- Remove the first row matching `p` (the ORM `db.delete` of the
single fetched row). -/
def removeFirst (p : Contact → Bool) : List Contact → List Contact
  | [] => []
  | x :: xs => if p x then xs else x :: removeFirst p xs

/-- `update_contact`: fetch the owned row; if found, set exactly the
supplied fields and return the refreshed row, otherwise return `None`
having changed nothing. -/
def update_contact (db : DB) (contact_id : Nat) (contact : ContactUpdate)
    (token : Token) : Except Err (DB × Option Contact) :=
  match decode_access_token token with
  | none => .error .unauthenticated
  | some uid =>
    match db.contacts.find? (ownedMatch contact_id uid) with
    | none => .ok (db, none)
    | some c =>
      let contacts' :=
        replaceFirst (ownedMatch contact_id uid)
          (fun x => applyUpdate x contact) db.contacts
      .ok ({ db with contacts := contacts' }, some (applyUpdate c contact))

/-- `delete_contact`: fetch the owned row; delete it and return `True`
if found, otherwise return `False` having changed nothing. -/
def delete_contact (db : DB) (contact_id : Nat) (token : Token) :
    Except Err (DB × Bool) :=
  match decode_access_token token with
  | none => .error .unauthenticated
  | some uid =>
    match db.contacts.find? (ownedMatch contact_id uid) with
    | none => .ok (db, false)
    | some _ =>
      .ok ({ db with contacts := removeFirst (ownedMatch contact_id uid) db.contacts },
           true)

/-- ASCII lowercasing of one character, modelling the case folding SQL
`ILIKE` applies to both operands. -/
def lowerChar : Char → Char
  | 'A' => 'a' | 'B' => 'b' | 'C' => 'c' | 'D' => 'd' | 'E' => 'e'
  | 'F' => 'f' | 'G' => 'g' | 'H' => 'h' | 'I' => 'i' | 'J' => 'j'
  | 'K' => 'k' | 'L' => 'l' | 'M' => 'm' | 'N' => 'n' | 'O' => 'o'
  | 'P' => 'p' | 'Q' => 'q' | 'R' => 'r' | 'S' => 's' | 'T' => 't'
  | 'U' => 'u' | 'V' => 'v' | 'W' => 'w' | 'X' => 'x' | 'Y' => 'y'
  | 'Z' => 'z'
  | c => c

/-- Lowercase a string into its character list. -/
def lowerStr (s : String) : List Char :=
  s.data.map lowerChar

/-- Does `f` hold on some suffix of the list (the list itself included)?
Used to interpret a `%` wildcard, which consumes any prefix. -/
def anySuffix (f : List Char → Bool) : List Char → Bool
  | [] => f []
  | c :: s' => f (c :: s') || anySuffix f s'

/-- SQL `LIKE` pattern matching on character lists: `%` matches any
(possibly empty) substring, `_` matches exactly one character, any
other pattern character matches itself. -/
def likeMatch : List Char → List Char → Bool
  | [], s => s.isEmpty
  | a :: ps, s =>
    if a = '%' then anySuffix (likeMatch ps) s
    else
      match s with
      | [] => false
      | c :: s' => if a = '_' then likeMatch ps s' else a == c && likeMatch ps s'

/-- SQL `ILIKE`: case-insensitive `LIKE`. -/
def ilike (s pat : String) : Bool :=
  likeMatch (lowerStr pat) (lowerStr s)

/-- `search_contacts`: owned rows where first name, last name or email
`ILIKE`-matches the pattern `f"%\x7bquery\x7d%"`. -/
def search_contacts (db : DB) (query : String) (token : Token) :
    Except Err (List Contact) :=
  match decode_access_token token with
  | none => .error .unauthenticated
  | some uid =>
    .ok (db.contacts.filter (fun c =>
      c.user_id == some uid &&
      (ilike c.first_name ("%" ++ query ++ "%") ||
       ilike c.last_name ("%" ++ query ++ "%") ||
       ilike c.email ("%" ++ query ++ "%"))))

/-- The per-contact body of the loop in `get_upcoming_birthdays`:
re-anchor the birthday to the current year, re-anchor to the next year
when that date already passed, and test inclusive membership in
`[today, today + 7 days]`.  `none` models the `ValueError` raised by
`date.replace` for a Feb 29 birthday in a non-leap target year. -/
def birthdayCheck (birthday today : PyDate) : Option Bool := do
  let anchored ← birthday.replaceYear today.year
  let anchored' ←
    if anchored.ltb today then birthday.replaceYear (today.year + 1)
    else some anchored
  some (today.leb anchored' && anchored'.leb (today.addDays 7))

/-- The accumulation loop of `get_upcoming_birthdays` over the owned
rows; `none` when any iteration raises. -/
def collectUpcoming (today : PyDate) : List Contact → Option (List Contact)
  | [] => some []
  | c :: cs => do
    let keep ← birthdayCheck c.birthday today
    let rest ← collectUpcoming today cs
    some (if keep then c :: rest else rest)

/-- `get_upcoming_birthdays`: owned rows whose (re-anchored) birthday
falls within the next 7 days; `today` is passed explicitly in place of
the impure `date.today()`. -/
def get_upcoming_birthdays (db : DB) (token : Token) (today : PyDate) :
    Except Err (List Contact) :=
  match decode_access_token token with
  | none => .error .unauthenticated
  | some uid =>
    match collectUpcoming today (db.contacts.filter (fun c => c.user_id == some uid)) with
    | none => .error .valueError
    | some l => .ok l

/-- `q` occurs as a contiguous sublist (substring) of `s`. -/
def isSubList (q : List Char) : List Char → Bool
  | [] => q.isEmpty
  | c :: s' => q.isPrefixOf (c :: s') || isSubList q s'

/-! ## Helper lemmas -/

theorem collectUpcoming_eq (today : PyDate) :
    ∀ (xs l : List Contact), collectUpcoming today xs = some l →
      l = xs.filter (fun c => birthdayCheck c.birthday today == some true)
  | [], l, h => by
    simp only [collectUpcoming, Option.some.injEq] at h
    simp [← h]
  | c :: cs, l, h => by
    rcases hb : birthdayCheck c.birthday today with _ | keep
    · simp [collectUpcoming, hb] at h
    · rcases hr : collectUpcoming today cs with _ | rest
      · simp [collectUpcoming, hb, hr] at h
      · have ih := collectUpcoming_eq today cs rest hr
        simp only [collectUpcoming, hb, hr, Option.bind_some,
          Option.some.injEq, Option.bind_eq_bind] at h
        subst ih
        cases keep <;> simp_all [List.filter_cons]

theorem replaceFirst_eq_self (p : Contact → Bool) (f : Contact → Contact)
    (hf : ∀ x, f x = x) : ∀ l : List Contact, replaceFirst p f l = l
  | [] => rfl
  | x :: xs => by
    simp only [replaceFirst, hf x, replaceFirst_eq_self p f hf xs, ite_self]

theorem find?_removeFirst_none (cid uid : Nat) :
    ∀ l : List Contact, (l.map Contact.id).Nodup →
      (removeFirst (ownedMatch cid uid) l).find? (ownedMatch cid uid) = none
  | [], _ => rfl
  | x :: xs, hnd => by
    have hnd' := hnd
    simp only [List.map_cons, List.nodup_cons] at hnd'
    rcases hpx : ownedMatch cid uid x with _ | _
    · simp only [removeFirst, hpx, Bool.false_eq_true, if_false,
        List.find?_cons, hpx]
      exact find?_removeFirst_none cid uid xs hnd'.2
    · simp only [removeFirst, hpx, if_true]
      rw [List.find?_eq_none]
      intro y hy hpy
      apply hnd'.1
      have hx : x.id = cid := by
        have := hpx
        simp only [ownedMatch, Bool.and_eq_true, beq_iff_eq] at this
        exact this.1
      have hyid : y.id = cid := by
        simp only [ownedMatch, Bool.and_eq_true, beq_iff_eq] at hpy
        exact hpy.1
      rw [hx, ← hyid]
      exact List.mem_map_of_mem Contact.id hy

theorem applyUpdate_empty (c : Contact) :
    applyUpdate c ⟨none, none, none, none, none, none, none⟩ = c := rfl

theorem likeMatch_single_pct : ∀ s : List Char, likeMatch ['%'] s = true
  | [] => rfl
  | c :: s' => by
    simp only [likeMatch, reduceIte, anySuffix]
    have := likeMatch_single_pct s'
    simp only [likeMatch, reduceIte] at this
    simp [this]

theorem isPrefixOf_nil_right (q : List Char) : q.isPrefixOf [] = q.isEmpty := by
  cases q <;> rfl

theorem likeMatch_lit_pct :
    ∀ (q : List Char), (∀ ch ∈ q, ch ≠ '%' ∧ ch ≠ '_') →
      ∀ s : List Char, likeMatch (q ++ ['%']) s = q.isPrefixOf s
  | [], _, s => by
    simp only [List.nil_append, likeMatch_single_pct, List.isPrefixOf]
  | a :: as, hq, s => by
    have ha := hq a (by simp)
    have hrest : ∀ ch ∈ as, ch ≠ '%' ∧ ch ≠ '_' :=
      fun ch hch => hq ch (by simp [hch])
    cases s with
    | nil =>
      simp only [List.cons_append, likeMatch, ha.1, if_false,
        isPrefixOf_nil_right]
      rfl
    | cons c s' =>
      simp only [List.cons_append, likeMatch, ha.1, ha.2, if_false]
      rw [show as.append ['%'] = as ++ ['%'] from rfl,
        likeMatch_lit_pct as hrest s']
      rfl

theorem lowerChar_wildcard (ch : Char) (h1 : ch ≠ '%') (h2 : ch ≠ '_') :
    lowerChar ch ≠ '%' ∧ lowerChar ch ≠ '_' := by
  unfold lowerChar
  split
  all_goals first
    | exact ⟨h1, h2⟩
    | exact ⟨by decide, by decide⟩

theorem isSubList_nil_left : ∀ s : List Char, isSubList [] s = true
  | [] => rfl
  | _ :: _ => rfl

theorem likeMatch_pct_wrap (q : List Char) (hq : ∀ ch ∈ q, ch ≠ '%' ∧ ch ≠ '_') :
    ∀ s : List Char, likeMatch ('%' :: (q ++ ['%'])) s = isSubList q s
  | [] => by
    simp only [likeMatch, reduceIte, anySuffix, likeMatch_lit_pct q hq,
      isPrefixOf_nil_right, isSubList]
  | c :: s' => by
    have ih := likeMatch_pct_wrap q hq s'
    simp only [likeMatch, reduceIte, anySuffix] at ih ⊢
    rw [likeMatch_lit_pct q hq, ih, isSubList]

theorem ilike_substring (f q : String) (hq : ∀ ch ∈ q.data, ch ≠ '%' ∧ ch ≠ '_') :
    ilike f ("%" ++ q ++ "%") = isSubList (lowerStr q) (lowerStr f) := by
  have hlow : ∀ ch ∈ lowerStr q, ch ≠ '%' ∧ ch ≠ '_' := by
    intro ch hch
    rcases List.mem_map.1 hch with ⟨d, hd, hde⟩
    rcases hq d hd with ⟨hd1, hd2⟩
    rw [← hde]
    exact lowerChar_wildcard d hd1 hd2
  have hdata : ("%" ++ q ++ "%").data = '%' :: (q.data ++ ['%']) := by
    simp [String.data_append]
  unfold ilike
  rw [show lowerStr ("%" ++ q ++ "%") = ("%" ++ q ++ "%").data.map lowerChar from rfl,
    hdata]
  simp only [List.map_cons, List.map_append, List.map_nil]
  rw [show lowerChar '%' = '%' from rfl]
  exact likeMatch_pct_wrap (q.data.map lowerChar) hlow (lowerStr f)

/-! ## Claims -/

/-- C3: for every input `contactFields`, including inputs that carry a
caller-supplied `user_id` owner field, `create_contact` produces a new
`Contact` whose owner is the user id taken from the verified identity
(the caller-supplied owner field is discarded — the result does not
depend on `cd.user_id` at all), and returns the persisted record
including its generated id. -/
theorem create_binds_server_owner
    (db : DB) (cd : ContactCreate) (tok : Token) (uid : Nat)
    (hdec : decode_access_token tok = some uid) :
    create_contact db cd tok =
      .ok (⟨db.contacts ++
              [⟨db.nextId, cd.first_name, cd.last_name, cd.email, cd.phone,
                cd.birthday, cd.extra, some uid⟩],
            db.nextId + 1⟩,
           ⟨db.nextId, cd.first_name, cd.last_name, cd.email, cd.phone,
            cd.birthday, cd.extra, some uid⟩) := by
  simp [create_contact, hdec]

/-- Witness for C3: a caller-supplied `user_id := some 99` is discarded
and the stored owner is the token's user id `1`. -/
theorem create_binds_server_owner_witness :
    create_contact ⟨[], 1⟩
      ⟨"John", "Doe", "john@example.com", "123", ⟨1990, 6, 28⟩, none, some 99⟩
      (.valid 1) =
      .ok (⟨[⟨1, "John", "Doe", "john@example.com", "123", ⟨1990, 6, 28⟩,
              none, some 1⟩], 2⟩,
           ⟨1, "John", "Doe", "john@example.com", "123", ⟨1990, 6, 28⟩,
            none, some 1⟩) :=
  create_binds_server_owner ⟨[], 1⟩
    ⟨"John", "Doe", "john@example.com", "123", ⟨1990, 6, 28⟩, none, some 99⟩
    (.valid 1) 1 rfl

/-- C4: for every accessor operation (create, list, get, update, delete,
search, upcomingBirthdays) and every credential that fails to decode,
the operation rejects with the unauthenticated error; no `.ok` result
(and hence no new store state) is produced, so the store is unchanged. -/
theorem unauthenticated_always_rejected
    (db : DB) (cd : ContactCreate) (cu : ContactUpdate)
    (cid skip lim : Nat) (q : String) (today : PyDate) (tok : Token)
    (hdec : decode_access_token tok = none) :
    create_contact db cd tok = .error .unauthenticated ∧
    get_contacts db skip lim tok = .error .unauthenticated ∧
    get_contact db cid tok = .error .unauthenticated ∧
    update_contact db cid cu tok = .error .unauthenticated ∧
    delete_contact db cid tok = .error .unauthenticated ∧
    search_contacts db q tok = .error .unauthenticated ∧
    get_upcoming_birthdays db tok today = .error .unauthenticated := by
  refine ⟨?_, ?_, ?_, ?_, ?_, ?_, ?_⟩ <;>
    simp [create_contact, get_contacts, get_contact, update_contact,
      delete_contact, search_contacts, get_upcoming_birthdays, hdec]

/-- Witness for C4: an invalid token is rejected by all seven operations. -/
theorem unauthenticated_always_rejected_witness :
    create_contact ⟨[], 1⟩
      ⟨"A", "B", "a@b.c", "1", ⟨1990, 1, 1⟩, none, none⟩ .invalid =
      .error .unauthenticated ∧
    get_contacts ⟨[], 1⟩ 0 100 .invalid = .error .unauthenticated ∧
    get_contact ⟨[], 1⟩ 5 .invalid = .error .unauthenticated ∧
    update_contact ⟨[], 1⟩ 5 ⟨none, none, none, none, none, none, none⟩
      .invalid = .error .unauthenticated ∧
    delete_contact ⟨[], 1⟩ 5 .invalid = .error .unauthenticated ∧
    search_contacts ⟨[], 1⟩ "q" .invalid = .error .unauthenticated ∧
    get_upcoming_birthdays ⟨[], 1⟩ .invalid ⟨2024, 1, 1⟩ =
      .error .unauthenticated :=
  unauthenticated_always_rejected ⟨[], 1⟩
    ⟨"A", "B", "a@b.c", "1", ⟨1990, 1, 1⟩, none, none⟩
    ⟨none, none, none, none, none, none, none⟩ 5 0 100 "q" ⟨2024, 1, 1⟩
    .invalid rfl

/-- C9: `get_upcoming_birthdays` is not total over valid stored
birthdays: an owned contact born on Feb 29, 2000 (a valid date) makes
the operation raise `ValueError` when today is in the non-leap year
2023, because `date.replace(year := 2023)` is invalid — the operation
returns the error instead of a list. -/
theorem upcoming_feb29_value_error :
    get_upcoming_birthdays
      ⟨[⟨1, "Ann", "Lee", "ann@example.com", "123", ⟨2000, 2, 29⟩,
         none, some 1⟩], 2⟩
      (.valid 1) ⟨2023, 6, 1⟩ = .error .valueError := rfl

/-- C10: `search_contacts` treats `%` and `_` in the query as SQL LIKE
wildcards rather than literal characters: the query `"%"` returns the
full owned set although `%` occurs literally in none of the three
fields, and the query `"m_rk"` matches the first name `"Mark"` although
`"m_rk"` is not a literal substring of any field. -/
theorem search_wildcards_not_literal :
    search_contacts
      ⟨[⟨1, "Alice", "Stone", "alice@example.com", "555", ⟨1991, 3, 4⟩,
         none, some 3⟩], 2⟩ "%" (.valid 3) =
      .ok [⟨1, "Alice", "Stone", "alice@example.com", "555", ⟨1991, 3, 4⟩,
            none, some 3⟩] ∧
    isSubList (lowerStr "%") (lowerStr "Alice") = false ∧
    isSubList (lowerStr "%") (lowerStr "Stone") = false ∧
    isSubList (lowerStr "%") (lowerStr "alice@example.com") = false ∧
    search_contacts
      ⟨[⟨2, "Mark", "Twain", "mark@example.com", "7", ⟨1980, 5, 6⟩,
         none, some 3⟩], 3⟩ "m_rk" (.valid 3) =
      .ok [⟨2, "Mark", "Twain", "mark@example.com", "7", ⟨1980, 5, 6⟩,
            none, some 3⟩] ∧
    isSubList (lowerStr "m_rk") (lowerStr "Mark") = false ∧
    isSubList (lowerStr "m_rk") (lowerStr "Twain") = false ∧
    isSubList (lowerStr "m_rk") (lowerStr "mark@example.com") = false :=
  ⟨rfl, rfl, rfl, rfl, rfl, rfl, rfl, rfl⟩

/-- C8: `get_contacts` returns the requester's contacts in stable
insertion order (the result is a sublist of the store, which is kept in
insertion order), paginated by dropping the first `skip` owned rows and
returning at most `lim` of the rest; every returned row is owned by the
requester, and an owner with no contacts gets the empty sequence. -/
theorem list_pagination
    (db : DB) (skip lim : Nat) (tok : Token) (uid : Nat) (l : List Contact)
    (hdec : decode_access_token tok = some uid)
    (h : get_contacts db skip lim tok = .ok l) :
    l = ((db.contacts.filter (fun c => c.user_id == some uid)).drop skip).take lim ∧
    l.Sublist db.contacts ∧
    l.length ≤ lim ∧
    (∀ c ∈ l, c.user_id = some uid) ∧
    ((∀ c ∈ db.contacts, c.user_id ≠ some uid) → l = []) := by
  simp only [get_contacts, hdec, Except.ok.injEq] at h
  subst h
  refine ⟨rfl, ?_, ?_, ?_, ?_⟩
  · exact ((List.take_sublist _ _).trans (List.drop_sublist _ _)).trans
      (List.filter_sublist _)
  · simp [List.length_take]
  · intro c hc
    have hc' : c ∈ db.contacts.filter (fun c => c.user_id == some uid) :=
      ((List.take_sublist _ _).trans (List.drop_sublist _ _)).mem hc
    have := List.of_mem_filter hc'
    simpa using this
  · intro hnone
    have hfil : db.contacts.filter (fun c => c.user_id == some uid) = [] := by
      rw [List.filter_eq_nil_iff]
      intro a ha
      simpa using hnone a ha
    rw [hfil]
    simp

/-- Witness for C8: with two rows owned by user 1 and one by user 2,
`skip = 1, limit = 5` returns exactly the second owned row, in order. -/
theorem list_pagination_witness :
    ([⟨3, "Carl", "Nye", "c@x.y", "3", ⟨1992, 2, 2⟩, none, some 1⟩]
        : List Contact) =
      ((([⟨1, "Ann", "Lee", "a@x.y", "1", ⟨1990, 1, 1⟩, none, some 1⟩,
          ⟨2, "Bob", "Fox", "b@x.y", "2", ⟨1991, 1, 1⟩, none, some 2⟩,
          ⟨3, "Carl", "Nye", "c@x.y", "3", ⟨1992, 2, 2⟩, none, some 1⟩]
            : List Contact).filter
          (fun c => c.user_id == some 1)).drop 1).take 5 ∧
    List.Sublist
      ([⟨3, "Carl", "Nye", "c@x.y", "3", ⟨1992, 2, 2⟩, none, some 1⟩]
        : List Contact)
      ([⟨1, "Ann", "Lee", "a@x.y", "1", ⟨1990, 1, 1⟩, none, some 1⟩,
        ⟨2, "Bob", "Fox", "b@x.y", "2", ⟨1991, 1, 1⟩, none, some 2⟩,
        ⟨3, "Carl", "Nye", "c@x.y", "3", ⟨1992, 2, 2⟩, none, some 1⟩]
        : List Contact) ∧
    ([⟨3, "Carl", "Nye", "c@x.y", "3", ⟨1992, 2, 2⟩, none, some 1⟩]
        : List Contact).length ≤ 5 :=
  have t := list_pagination
    ⟨[⟨1, "Ann", "Lee", "a@x.y", "1", ⟨1990, 1, 1⟩, none, some 1⟩,
      ⟨2, "Bob", "Fox", "b@x.y", "2", ⟨1991, 1, 1⟩, none, some 2⟩,
      ⟨3, "Carl", "Nye", "c@x.y", "3", ⟨1992, 2, 2⟩, none, some 1⟩], 4⟩
    1 5 (.valid 1) 1
    [⟨3, "Carl", "Nye", "c@x.y", "3", ⟨1992, 2, 2⟩, none, some 1⟩]
    rfl rfl
  ⟨t.1, t.2.1, t.2.2.1⟩

/-- C1: a contact created under owner A's verified identity is never
contained in the result of get, list, search, or upcomingBirthdays
invoked under a different owner B's identity, over any store state:
every returned contact carries the requester's user id. -/
theorem owner_isolation
    (db1 db2 db1' : DB) (cd : ContactCreate) (uidA uidB : Nat)
    (tokA tokB : Token) (c : Contact)
    (hA : decode_access_token tokA = some uidA)
    (hB : decode_access_token tokB = some uidB)
    (hne : uidA ≠ uidB)
    (hc : create_contact db1 cd tokA = .ok (db1', c)) :
    (∀ cid r, get_contact db2 cid tokB = .ok (some r) → r ≠ c) ∧
    (∀ skip lim l, get_contacts db2 skip lim tokB = .ok l → c ∉ l) ∧
    (∀ q l, search_contacts db2 q tokB = .ok l → c ∉ l) ∧
    (∀ today l, get_upcoming_birthdays db2 tokB today = .ok l → c ∉ l) := by
  have hcu : c.user_id = some uidA := by
    simp only [create_contact, hA, Except.ok.injEq, Prod.mk.injEq] at hc
    rw [← hc.2]
  have hBne : ∀ x : Contact, x.user_id = some uidB → x ≠ c := by
    intro x hx hxc
    rw [hxc, hcu] at hx
    exact hne (Option.some.injEq uidA uidB ▸ hx.symm ▸ rfl)
  refine ⟨?_, ?_, ?_, ?_⟩
  · intro cid r hr
    simp only [get_contact, hB, Except.ok.injEq] at hr
    have hp := List.find?_some hr
    simp only [ownedMatch, Bool.and_eq_true, beq_iff_eq] at hp
    exact hBne r hp.2
  · intro skip lim l hl hmem
    have := list_pagination db2 skip lim tokB uidB l hB hl
    exact hBne c (this.2.2.2.1 c hmem) rfl
  · intro q l hl hmem
    simp only [search_contacts, hB, Except.ok.injEq] at hl
    subst hl
    have := List.of_mem_filter hmem
    simp only [Bool.and_eq_true, beq_iff_eq] at this
    exact hBne c this.1 rfl
  · intro today l hl hmem
    simp only [get_upcoming_birthdays, hB] at hl
    rcases hcol : collectUpcoming today
        (db2.contacts.filter (fun x => x.user_id == some uidB)) with _ | l0
    · rw [hcol] at hl
      exact absurd hl (by simp)
    · rw [hcol] at hl
      simp only [Except.ok.injEq] at hl
      subst hl
      have := collectUpcoming_eq today _ l0 hcol
      subst this
      have h1 := List.of_mem_filter hmem
      have h2 := List.mem_of_mem_filter hmem
      have h3 := List.of_mem_filter h2
      simp only [Bool.and_eq_true, beq_iff_eq] at h3
      exact hBne c h3 rfl

/-- Witness for C1: the contact created for user 1 is absent from
user 2's contact list over the post-creation store. -/
theorem owner_isolation_witness :
    get_contacts
      ⟨[⟨1, "John", "Doe", "john@example.com", "123", ⟨1990, 6, 28⟩,
         none, some 1⟩], 2⟩ 0 100 (.valid 2) = .ok [] ∧
    (⟨1, "John", "Doe", "john@example.com", "123", ⟨1990, 6, 28⟩,
      none, some 1⟩ : Contact) ∉ ([] : List Contact) :=
  ⟨rfl,
   (owner_isolation ⟨[], 1⟩
      ⟨[⟨1, "John", "Doe", "john@example.com", "123", ⟨1990, 6, 28⟩,
         none, some 1⟩], 2⟩
      ⟨[⟨1, "John", "Doe", "john@example.com", "123", ⟨1990, 6, 28⟩,
         none, some 1⟩], 2⟩
      ⟨"John", "Doe", "john@example.com", "123", ⟨1990, 6, 28⟩, none, none⟩
      1 2 (.valid 1) (.valid 2)
      ⟨1, "John", "Doe", "john@example.com", "123", ⟨1990, 6, 28⟩,
       none, some 1⟩
      rfl rfl (by decide) rfl).2.1 0 100 [] rfl⟩

/-- C2: whenever `get_upcoming_birthdays` returns a list, a contact is
in it iff it is a stored contact of the requester whose birthday,
re-anchored to today's year and then to the next year when that date
precedes today, lies in the inclusive window `[today, today + 7 days]`
(`birthdayCheck … = some true`); concretely, with today = 2024-06-25 a
birthday of any-year 06-28 is included and 12-30 is excluded, and with
today = 2024-12-28 a birthday of 01-01 re-anchors to 2025-01-01 and is
included. -/
theorem upcoming_window_iff
    (db : DB) (tok : Token) (uid : Nat) (today : PyDate)
    (l : List Contact) (c : Contact)
    (hdec : decode_access_token tok = some uid)
    (h : get_upcoming_birthdays db tok today = .ok l) :
    (c ∈ l ↔ c ∈ db.contacts ∧ c.user_id = some uid ∧
       birthdayCheck c.birthday today = some true) ∧
    get_upcoming_birthdays
      ⟨[⟨1, "Ann", "Lee", "a@x.y", "1", ⟨1990, 6, 28⟩, none, some 7⟩], 2⟩
      (.valid 7) ⟨2024, 6, 25⟩ =
      .ok [⟨1, "Ann", "Lee", "a@x.y", "1", ⟨1990, 6, 28⟩, none, some 7⟩] ∧
    get_upcoming_birthdays
      ⟨[⟨1, "Ann", "Lee", "a@x.y", "1", ⟨1990, 12, 30⟩, none, some 7⟩], 2⟩
      (.valid 7) ⟨2024, 6, 25⟩ = .ok [] ∧
    get_upcoming_birthdays
      ⟨[⟨1, "Ann", "Lee", "a@x.y", "1", ⟨1990, 1, 1⟩, none, some 7⟩], 2⟩
      (.valid 7) ⟨2024, 12, 28⟩ =
      .ok [⟨1, "Ann", "Lee", "a@x.y", "1", ⟨1990, 1, 1⟩, none, some 7⟩] := by
  refine ⟨?_, rfl, rfl, rfl⟩
  simp only [get_upcoming_birthdays, hdec] at h
  rcases hcol : collectUpcoming today
      (db.contacts.filter (fun x => x.user_id == some uid)) with _ | l0
  · rw [hcol] at h
    exact absurd h (by simp)
  · rw [hcol] at h
    simp only [Except.ok.injEq] at h
    subst h
    rw [collectUpcoming_eq today _ l0 hcol]
    simp only [List.mem_filter, Bool.and_eq_true, beq_iff_eq, and_assoc]

/-- Witness for C2: the 06-28 birthday contact of user 7 is returned on
2024-06-25 and satisfies the window characterization. -/
theorem upcoming_window_iff_witness :
    ((⟨1, "Ann", "Lee", "a@x.y", "1", ⟨1990, 6, 28⟩, none, some 7⟩ : Contact) ∈
       [(⟨1, "Ann", "Lee", "a@x.y", "1", ⟨1990, 6, 28⟩, none, some 7⟩ : Contact)] ↔
     (⟨1, "Ann", "Lee", "a@x.y", "1", ⟨1990, 6, 28⟩, none, some 7⟩ : Contact) ∈
       [(⟨1, "Ann", "Lee", "a@x.y", "1", ⟨1990, 6, 28⟩, none, some 7⟩ : Contact)] ∧
     (⟨1, "Ann", "Lee", "a@x.y", "1", ⟨1990, 6, 28⟩, none, some 7⟩
        : Contact).user_id = some 7 ∧
     birthdayCheck ⟨1990, 6, 28⟩ ⟨2024, 6, 25⟩ = some true) ∧
    get_upcoming_birthdays
      ⟨[⟨1, "Ann", "Lee", "a@x.y", "1", ⟨1990, 6, 28⟩, none, some 7⟩], 2⟩
      (.valid 7) ⟨2024, 6, 25⟩ =
      .ok [⟨1, "Ann", "Lee", "a@x.y", "1", ⟨1990, 6, 28⟩, none, some 7⟩] ∧
    get_upcoming_birthdays
      ⟨[⟨1, "Ann", "Lee", "a@x.y", "1", ⟨1990, 12, 30⟩, none, some 7⟩], 2⟩
      (.valid 7) ⟨2024, 6, 25⟩ = .ok [] ∧
    get_upcoming_birthdays
      ⟨[⟨1, "Ann", "Lee", "a@x.y", "1", ⟨1990, 1, 1⟩, none, some 7⟩], 2⟩
      (.valid 7) ⟨2024, 12, 28⟩ =
      .ok [⟨1, "Ann", "Lee", "a@x.y", "1", ⟨1990, 1, 1⟩, none, some 7⟩] :=
  upcoming_window_iff
    ⟨[⟨1, "Ann", "Lee", "a@x.y", "1", ⟨1990, 6, 28⟩, none, some 7⟩], 2⟩
    (.valid 7) 7 ⟨2024, 6, 25⟩
    [⟨1, "Ann", "Lee", "a@x.y", "1", ⟨1990, 6, 28⟩, none, some 7⟩]
    ⟨1, "Ann", "Lee", "a@x.y", "1", ⟨1990, 6, 28⟩, none, some 7⟩
    rfl rfl

/-- C5: `update_contact` applies exactly the fields present in the
partial update to the matching owned record: each supplied field takes
the supplied value, each omitted field (and the id) is unchanged; an
all-omitted update leaves the store and the record unchanged; and when
no record matches the (id, owner) pair nothing is mutated and `none`
(not-found) is returned. -/
theorem update_partial_fields
    (db : DB) (cid : Nat) (u : ContactUpdate) (tok : Token) (uid : Nat)
    (c : Contact)
    (hdec : decode_access_token tok = some uid) :
    (db.contacts.find? (ownedMatch cid uid) = none →
       update_contact db cid u tok = .ok (db, none)) ∧
    (db.contacts.find? (ownedMatch cid uid) = some c →
       update_contact db cid u tok =
         .ok (⟨replaceFirst (ownedMatch cid uid) (fun x => applyUpdate x u)
                 db.contacts, db.nextId⟩,
              some (applyUpdate c u)) ∧
       (applyUpdate c u).id = c.id ∧
       (u.first_name = none → (applyUpdate c u).first_name = c.first_name) ∧
       (∀ v, u.first_name = some v → (applyUpdate c u).first_name = v) ∧
       (u.last_name = none → (applyUpdate c u).last_name = c.last_name) ∧
       (∀ v, u.last_name = some v → (applyUpdate c u).last_name = v) ∧
       (u.email = none → (applyUpdate c u).email = c.email) ∧
       (∀ v, u.email = some v → (applyUpdate c u).email = v) ∧
       (u.phone = none → (applyUpdate c u).phone = c.phone) ∧
       (∀ v, u.phone = some v → (applyUpdate c u).phone = v) ∧
       (u.birthday = none → (applyUpdate c u).birthday = c.birthday) ∧
       (∀ v, u.birthday = some v → (applyUpdate c u).birthday = v) ∧
       (u.extra = none → (applyUpdate c u).extra = c.extra) ∧
       (∀ v, u.extra = some v → (applyUpdate c u).extra = v) ∧
       (u.user_id = none → (applyUpdate c u).user_id = c.user_id) ∧
       (∀ v, u.user_id = some v → (applyUpdate c u).user_id = v)) ∧
    update_contact db cid ⟨none, none, none, none, none, none, none⟩ tok =
      .ok (db, db.contacts.find? (ownedMatch cid uid)) := by
  refine ⟨?_, ?_, ?_⟩
  · intro hf
    simp [update_contact, hdec, hf]
  · intro hf
    refine ⟨by simp [update_contact, hdec, hf], rfl, ?_, ?_, ?_, ?_, ?_, ?_,
      ?_, ?_, ?_, ?_, ?_, ?_, ?_, ?_⟩ <;>
      first
        | (intro hn; simp [applyUpdate, hn])
        | (intro v hv; simp [applyUpdate, hv])
  · rcases hf : db.contacts.find? (ownedMatch cid uid) with _ | c0
    · simp [update_contact, hdec, hf]
    · simp only [update_contact, hdec, hf, applyUpdate_empty]
      rw [replaceFirst_eq_self _ (fun x => x) (fun _ => rfl)]

/-- Witness for C5: updating only the first name changes exactly that
field, and the all-omitted update is the identity on the store. -/
theorem update_partial_fields_witness :
    update_contact
      ⟨[⟨1, "John", "Doe", "john@example.com", "123", ⟨1990, 6, 28⟩,
         none, some 1⟩], 2⟩ 1
      ⟨some "Johnny", none, none, none, none, none, none⟩ (.valid 1) =
      .ok (⟨[⟨1, "Johnny", "Doe", "john@example.com", "123", ⟨1990, 6, 28⟩,
              none, some 1⟩], 2⟩,
           some ⟨1, "Johnny", "Doe", "john@example.com", "123",
                 ⟨1990, 6, 28⟩, none, some 1⟩) ∧
    update_contact
      ⟨[⟨1, "John", "Doe", "john@example.com", "123", ⟨1990, 6, 28⟩,
         none, some 1⟩], 2⟩ 1
      ⟨none, none, none, none, none, none, none⟩ (.valid 1) =
      .ok (⟨[⟨1, "John", "Doe", "john@example.com", "123", ⟨1990, 6, 28⟩,
              none, some 1⟩], 2⟩,
           some ⟨1, "John", "Doe", "john@example.com", "123", ⟨1990, 6, 28⟩,
                 none, some 1⟩) :=
  have t := update_partial_fields
    ⟨[⟨1, "John", "Doe", "john@example.com", "123", ⟨1990, 6, 28⟩,
       none, some 1⟩], 2⟩ 1
    ⟨some "Johnny", none, none, none, none, none, none⟩ (.valid 1) 1
    ⟨1, "John", "Doe", "john@example.com", "123", ⟨1990, 6, 28⟩,
     none, some 1⟩ rfl
  ⟨(t.2.1 rfl).1, t.2.2⟩

/-- C6: under the primary-key invariant (no two rows share an id),
`delete_contact` removes the matching owned record and returns `true`
when one exists, and a second delete of the same id then returns
`false` on the unchanged store; when no record matches (non-existent id
or a row owned by another user) it returns `false` without error and
without changing the store. -/
theorem delete_removes_or_false
    (db : DB) (cid : Nat) (tok : Token) (uid : Nat)
    (hdec : decode_access_token tok = some uid)
    (hids : (db.contacts.map Contact.id).Nodup) :
    (∀ c, db.contacts.find? (ownedMatch cid uid) = some c →
       delete_contact db cid tok =
         .ok (⟨removeFirst (ownedMatch cid uid) db.contacts, db.nextId⟩, true) ∧
       delete_contact ⟨removeFirst (ownedMatch cid uid) db.contacts, db.nextId⟩
           cid tok =
         .ok (⟨removeFirst (ownedMatch cid uid) db.contacts, db.nextId⟩,
              false)) ∧
    (db.contacts.find? (ownedMatch cid uid) = none →
       delete_contact db cid tok = .ok (db, false)) := by
  constructor
  · intro c hf
    constructor
    · simp [delete_contact, hdec, hf]
    · have hnone := find?_removeFirst_none cid uid db.contacts hids
      simp [delete_contact, hdec, hnone]
  · intro hf
    simp [delete_contact, hdec, hf]

/-- Witness for C6: deleting the only owned row returns `true` and
empties the store; repeating the delete returns `false`. -/
theorem delete_removes_or_false_witness :
    delete_contact
      ⟨[⟨1, "John", "Doe", "john@example.com", "123", ⟨1990, 6, 28⟩,
         none, some 1⟩], 2⟩ 1 (.valid 1) = .ok (⟨[], 2⟩, true) ∧
    delete_contact ⟨[], 2⟩ 1 (.valid 1) = .ok (⟨[], 2⟩, false) :=
  (delete_removes_or_false
    ⟨[⟨1, "John", "Doe", "john@example.com", "123", ⟨1990, 6, 28⟩,
       none, some 1⟩], 2⟩ 1 (.valid 1) 1 rfl (by simp)).1
    ⟨1, "John", "Doe", "john@example.com", "123", ⟨1990, 6, 28⟩,
     none, some 1⟩ rfl

/-- C7 counterexample: as universally stated the claim is false — with
queryText `"%"` the search returns a contact although `"%"` occurs as a
(case-insensitive) literal substring of none of its first name, last
name, or email. -/
theorem search_substring_counterexample :
    search_contacts
      ⟨[⟨1, "John", "Doe", "john@example.com", "123", ⟨1990, 6, 28⟩,
         none, some 1⟩], 2⟩ "%" (.valid 1) =
      .ok [⟨1, "John", "Doe", "john@example.com", "123", ⟨1990, 6, 28⟩,
            none, some 1⟩] ∧
    isSubList (lowerStr "%") (lowerStr "John") = false ∧
    isSubList (lowerStr "%") (lowerStr "Doe") = false ∧
    isSubList (lowerStr "%") (lowerStr "john@example.com") = false :=
  ⟨rfl, rfl, rfl, rfl⟩

/-- C7 (amended): for every queryText containing no `%` and no `_`
character, `search_contacts` returns exactly the owned contacts for
which the queryText occurs as a case-insensitive substring of the first
name, the last name, or the email (logical OR over the three fields);
and with queryText equal to the empty string it returns the full owned
set. -/
theorem search_substring_amended
    (db : DB) (q : String) (tok : Token) (uid : Nat)
    (hdec : decode_access_token tok = some uid)
    (hq : ∀ ch ∈ q.data, ch ≠ '%' ∧ ch ≠ '_') :
    search_contacts db q tok =
      .ok (db.contacts.filter (fun c =>
        c.user_id == some uid &&
        (isSubList (lowerStr q) (lowerStr c.first_name) ||
         isSubList (lowerStr q) (lowerStr c.last_name) ||
         isSubList (lowerStr q) (lowerStr c.email)))) ∧
    (q = "" → search_contacts db q tok =
      .ok (db.contacts.filter (fun c => c.user_id == some uid))) := by
  constructor
  · simp only [search_contacts, hdec, Except.ok.injEq]
    apply List.filter_congr
    intro c _
    rw [ilike_substring c.first_name q hq, ilike_substring c.last_name q hq,
      ilike_substring c.email q hq]
  · intro hq0
    subst hq0
    simp only [search_contacts, hdec, Except.ok.injEq]
    apply List.filter_congr
    intro c _
    have h1 : ilike c.first_name ("%" ++ "" ++ "%") =
        isSubList (lowerStr "") (lowerStr c.first_name) :=
      ilike_substring c.first_name "" (by intro ch hch; cases hch)
    have h2 : ilike c.last_name ("%" ++ "" ++ "%") =
        isSubList (lowerStr "") (lowerStr c.last_name) :=
      ilike_substring c.last_name "" (by intro ch hch; cases hch)
    have h3 : ilike c.email ("%" ++ "" ++ "%") =
        isSubList (lowerStr "") (lowerStr c.email) :=
      ilike_substring c.email "" (by intro ch hch; cases hch)
    rw [h1, h2, h3,
      show lowerStr "" = [] from rfl,
      isSubList_nil_left, isSubList_nil_left, isSubList_nil_left]
    simp

/-- Witness for C7 (amended): the query `"jo"` case-insensitively
matches `"John"` and `"JOHNSON"` but not `"Max Payne"`, and the empty
query returns the full owned set. -/
theorem search_substring_amended_witness :
    search_contacts
      ⟨[⟨1, "John", "Doe", "john@example.com", "1", ⟨1990, 1, 1⟩,
         none, some 1⟩,
        ⟨2, "Ann", "JOHNSON", "ann@example.com", "2", ⟨1991, 1, 1⟩,
         none, some 1⟩,
        ⟨3, "Max", "Payne", "max@example.com", "3", ⟨1992, 1, 1⟩,
         none, some 1⟩,
        ⟨4, "Jo", "Other", "jo@example.com", "4", ⟨1993, 1, 1⟩,
         none, some 2⟩], 5⟩ "jo" (.valid 1) =
      .ok [⟨1, "John", "Doe", "john@example.com", "1", ⟨1990, 1, 1⟩,
            none, some 1⟩,
           ⟨2, "Ann", "JOHNSON", "ann@example.com", "2", ⟨1991, 1, 1⟩,
            none, some 1⟩] ∧
    search_contacts
      ⟨[⟨1, "John", "Doe", "john@example.com", "1", ⟨1990, 1, 1⟩,
         none, some 1⟩,
        ⟨2, "Ann", "JOHNSON", "ann@example.com", "2", ⟨1991, 1, 1⟩,
         none, some 1⟩,
        ⟨3, "Max", "Payne", "max@example.com", "3", ⟨1992, 1, 1⟩,
         none, some 1⟩,
        ⟨4, "Jo", "Other", "jo@example.com", "4", ⟨1993, 1, 1⟩,
         none, some 2⟩], 5⟩ "" (.valid 1) =
      .ok [⟨1, "John", "Doe", "john@example.com", "1", ⟨1990, 1, 1⟩,
            none, some 1⟩,
           ⟨2, "Ann", "JOHNSON", "ann@example.com", "2", ⟨1991, 1, 1⟩,
            none, some 1⟩,
           ⟨3, "Max", "Payne", "max@example.com", "3", ⟨1992, 1, 1⟩,
            none, some 1⟩] :=
  ⟨(search_substring_amended
      ⟨[⟨1, "John", "Doe", "john@example.com", "1", ⟨1990, 1, 1⟩,
         none, some 1⟩,
        ⟨2, "Ann", "JOHNSON", "ann@example.com", "2", ⟨1991, 1, 1⟩,
         none, some 1⟩,
        ⟨3, "Max", "Payne", "max@example.com", "3", ⟨1992, 1, 1⟩,
         none, some 1⟩,
        ⟨4, "Jo", "Other", "jo@example.com", "4", ⟨1993, 1, 1⟩,
         none, some 2⟩], 5⟩ "jo" (.valid 1) 1 rfl (by decide)).1,
   (search_substring_amended
      ⟨[⟨1, "John", "Doe", "john@example.com", "1", ⟨1990, 1, 1⟩,
         none, some 1⟩,
        ⟨2, "Ann", "JOHNSON", "ann@example.com", "2", ⟨1991, 1, 1⟩,
         none, some 1⟩,
        ⟨3, "Max", "Payne", "max@example.com", "3", ⟨1992, 1, 1⟩,
         none, some 1⟩,
        ⟨4, "Jo", "Other", "jo@example.com", "4", ⟨1993, 1, 1⟩,
         none, some 2⟩], 5⟩ "" (.valid 1) 1 rfl (by decide)).2 rfl⟩

end ContactsApp
